import Mathlib

/-!
A verification development for the navigation-indexing and query-optimization
core of the MCPNotebookLM repository (files `notebook_template.py`,
`query_builder.py`, `config.py`).  The Python code is shallowly embedded:
dictionaries become insertion-ordered association lists with in-place update,
mutation becomes explicit state passing, exceptions become an error sum, and
the single external-collaborator call made by an operation is passed in as a
parameter (its reply).  Machine-level aspects (I/O, the HTTP client) are out
of scope; all modelled functions are pure and executable.
-/

/-- Python `str.lower()`, modelled as character-wise lowercasing.  The
development only relies on this being a fixed function applied consistently
at indexing time and at lookup time. -/
def pyLower (s : String) : String := String.mk (s.data.map Char.toLower)

/-- Python `str.strip()`: drop leading and trailing whitespace characters. -/
def pyStrip (s : String) : String :=
  String.mk (((s.data.dropWhile Char.isWhitespace).reverse.dropWhile Char.isWhitespace).reverse)

/-- Python slicing `s[:n]` on a string: the first `n` characters. -/
def pySlice (s : String) (n : Nat) : String := String.mk (s.data.take n)

/-- Python `len(s)` for a string: number of characters. -/
def pyLen (s : String) : Nat := s.data.length

/-- An insertion-ordered dictionary with string keys, as Python's `dict`. -/
abbrev Dict (V : Type) := List (String × V)

/-- `d.get(k)` / `d[k]`-with-check: the value stored under `k`, if any. -/
def dictGet {V : Type} (d : Dict V) (k : String) : Option V :=
  match d with
  | [] => none
  | (k', v) :: rest => if k' = k then some v else dictGet rest k

/-- `d.get(k, dflt)`. -/
def dictGetD {V : Type} (d : Dict V) (k : String) (dflt : V) : V :=
  (dictGet d k).getD dflt

/-- `k in d`. -/
def dictContains {V : Type} (d : Dict V) (k : String) : Bool :=
  (dictGet d k).isSome

/-- `d[k] = v`: update in place if the key exists, else append (Python
dictionaries keep insertion order). -/
def dictSet {V : Type} (d : Dict V) (k : String) (v : V) : Dict V :=
  match d with
  | [] => [(k, v)]
  | (k', v') :: rest => if k' = k then (k, v) :: rest else (k', v') :: dictSet rest k v

/-- `SourceType` enum of `notebook_template.py`. -/
inductive SourceType where
  | documentation
  | code
  | tutorial
  | reference
  | api_docs
  | examples
deriving DecidableEq, Repr

/-- `.value` of a `SourceType` member. -/
def SourceType.value : SourceType → String
  | .documentation => "documentation"
  | .code => "code"
  | .tutorial => "tutorial"
  | .reference => "reference"
  | .api_docs => "api_docs"
  | .examples => "examples"

/-- Dataclass `SourceMetadata` of `notebook_template.py`. -/
structure SourceMetadata where
  title : String
  category : String
  tags : List String := []
  description : String := ""
  source_type : SourceType := .documentation
  priority : Int := 5
  related_sections : List String := []
deriving DecidableEq, Repr

/-- Dataclass `NavigationNode` of `notebook_template.py`. -/
structure NavigationNode where
  section_id : String
  title : String
  description : String
  keywords : List String := []
  children : List NavigationNode := []
  source_metadata : Option SourceMetadata := none
deriving Repr

/-- State of a `NavigationMap` object: root list, id index, keyword index. -/
structure NavigationMap where
  root_nodes : List NavigationNode := []
  section_index : Dict NavigationNode := []
  keyword_index : Dict (List String) := []
deriving Repr

/-- `NavigationMap.__init__`. -/
def NavigationMap.empty : NavigationMap := {}

/-- One iteration of the keyword-indexing loop in `add_section`: ensure the
lowercased keyword has an entry, then append `section_id` to it. -/
def kwIndexAdd (section_id : String) (idx : Dict (List String)) (keyword : String) :
    Dict (List String) :=
  dictSet idx (pyLower keyword) (dictGetD idx (pyLower keyword) [] ++ [section_id])

/-- `NavigationMap.add_section`, state-passing.  Returns the updated map and
the created node.  One modelling caveat that no theorem below depends on: in
Python, appending a child to a found parent mutates the one shared node
object, visible both from `section_index` and from the `root_nodes` tree; here
only the `section_index` copy of the parent is updated. -/
def NavigationMap.add_section (m : NavigationMap) (section_id title description : String)
    (keywords : List String) (parent_id : Option String := none)
    (metadata : Option SourceMetadata := none) : NavigationMap × NavigationNode :=
  let node : NavigationNode :=
    { section_id := section_id, title := title, description := description,
      keywords := keywords, children := [], source_metadata := metadata }
  let kidx := keywords.foldl (kwIndexAdd section_id) m.keyword_index
  let rootsAndIdx : List NavigationNode × Dict NavigationNode :=
    match parent_id with
    | some pid =>
      match dictGet m.section_index pid with
      | some parent =>
        (m.root_nodes, dictSet m.section_index pid
          { parent with children := parent.children ++ [node] })
      | none => (m.root_nodes ++ [node], m.section_index)
    | none => (m.root_nodes ++ [node], m.section_index)
  ({ root_nodes := rootsAndIdx.1,
     section_index := dictSet rootsAndIdx.2 section_id node,
     keyword_index := kidx }, node)

/-- `NavigationMap.find_sections_by_keyword`. -/
def NavigationMap.find_sections_by_keyword (m : NavigationMap) (keyword : String) :
    List NavigationNode :=
  let section_ids := dictGetD m.keyword_index (pyLower keyword) []
  section_ids.filterMap (fun sid => dictGet m.section_index sid)

/-- `NavigationMap.generate_navigation_query`. -/
def NavigationMap.generate_navigation_query (m : NavigationMap) (topic : String) : String :=
  match m.find_sections_by_keyword topic with
  | [] => "Найти информацию о " ++ topic
  | s :: _ => "В разделе \x27" ++ s.title ++ "\x27 найти информацию о " ++ topic

/-- One recorded call to `NavigationMap.add_section` (the arguments). -/
structure AddOp where
  section_id : String
  title : String
  description : String
  keywords : List String := []
  parent_id : Option String := none
  metadata : Option SourceMetadata := none
deriving Repr

/-- The node constructed by `add_section` for the given arguments. -/
def AddOp.node (op : AddOp) : NavigationNode :=
  { section_id := op.section_id, title := op.title, description := op.description,
    keywords := op.keywords, children := [], source_metadata := op.metadata }

/-- Apply one recorded `add_section` call to a map. -/
def applyOp (m : NavigationMap) (op : AddOp) : NavigationMap :=
  (m.add_section op.section_id op.title op.description op.keywords op.parent_id op.metadata).1

/-- The navigation map reached from the empty map by a list of
`add_section` calls, oldest first. -/
def applyOps (ops : List AddOp) : NavigationMap :=
  ops.foldl applyOp NavigationMap.empty

/-- The `lines` list built by `NotebookTemplate._format_metadata_prefix`
before the final `"\n".join`.  Python truthiness: an optional line is added
exactly when its list/string field is non-empty. -/
def format_metadata_lines (metadata : SourceMetadata) : List String :=
  let lines := ["# " ++ metadata.title,
                "**Категория:** " ++ metadata.category,
                "**Тип:** " ++ metadata.source_type.value]
  let lines := if metadata.tags ≠ [] then
    lines ++ ["**Теги:** " ++ String.intercalate ", " metadata.tags] else lines
  let lines := if metadata.description ≠ "" then
    lines ++ ["**Описание:** " ++ metadata.description] else lines
  let lines := if metadata.related_sections ≠ [] then
    lines ++ ["**Связанные разделы:** " ++ String.intercalate ", " metadata.related_sections]
    else lines
  lines ++ ["---\n"]

/-- `NotebookTemplate._format_metadata_prefix`: the metadata block prepended
to text sources, `"\n".join(lines)`. -/
def format_metadata_block (metadata : SourceMetadata) : String :=
  String.intercalate "\n" (format_metadata_lines metadata)

/-- `NotebookTemplate.generate_optimized_query` (the template's navigation
map is the only state it reads). -/
def generate_optimized_query (m : NavigationMap) (question : String)
    (use_section_hint : Bool := true) : String :=
  if use_section_hint then m.generate_navigation_query question
  else question

/-- `QueryBuilder.build_multi_section_query`: the list comprehension
resolving each id through `section_index`. -/
def resolvedTitles (m : NavigationMap) (section_ids : List String) : List String :=
  section_ids.filterMap (fun sid => (dictGet m.section_index sid).map NavigationNode.title)

/-- `QueryBuilder.build_multi_section_query` (reads only the navigation
map of its template). -/
def build_multi_section_query (m : NavigationMap) (question : String)
    (section_ids : List String) : String :=
  let section_titles := resolvedTitles m section_ids
  if section_titles = [] then question
  else
    let sections_str :=
      String.intercalate ", " (section_titles.map (fun title => "\x27" ++ title ++ "\x27"))
    "В разделах " ++ sections_str ++ " найти: " ++ question

/-- Dataclass `Config` of `config.py`.  The field `note_label` models the
source's note-title marker field (default `"Заметка:"`). -/
structure Config where
  note_label : String := "Заметка:"
  note_max_title_length : Nat := 50
  default_auto_save : Bool := true
  default_use_optimization : Bool := true
  verbose : Bool := true
deriving DecidableEq, Repr

/-- `Config.get_note_title`: strip the question, truncate to
`note_max_title_length` characters with `"..."` when longer, and prepend the
configured marker and a space. -/
def Config.get_note_title (c : Config) (question : String) : String :=
  let question_clean := pyStrip question
  let question_title :=
    if pyLen question_clean > c.note_max_title_length then
      pySlice question_clean c.note_max_title_length ++ "..."
    else question_clean
  c.note_label ++ " " ++ question_title

/-! ### Dictionary lemmas -/

theorem dictGet_dictSet {V : Type} (d : Dict V) (k : String) (v : V) (key : String) :
    dictGet (dictSet d k v) key = if k = key then some v else dictGet d key := by
  induction d with
  | nil => simp [dictSet, dictGet]
  | cons hd tl ih =>
    obtain ⟨k', v'⟩ := hd
    by_cases hk : k' = k
    · subst hk
      by_cases hkey : k' = key <;> simp [dictSet, dictGet, hkey]
    · by_cases hkey : k' = key
      · subst hkey
        have : ¬ k = k' := fun h => hk h.symm
        simp [dictSet, dictGet, hk, this]
      · simp [dictSet, dictGet, hk, hkey, ih]

theorem isSome_dictGet_dictSet {V : Type} (d : Dict V) (k : String) (v : V) (sid : String)
    (h : (dictGet d sid).isSome) : (dictGet (dictSet d k v) sid).isSome := by
  rw [dictGet_dictSet]
  by_cases hk : k = sid <;> simp [hk, h]

/-! ### Keyword-index lemmas: what the `add_section` loop does to
`keyword_index`, one step (`kwIndexAdd`) and folded over a keyword list. -/

theorem mem_kwIndexAdd_of_mem (s : String) (idx : Dict (List String)) (kw key sid : String)
    (h : sid ∈ dictGetD idx key []) : sid ∈ dictGetD (kwIndexAdd s idx kw) key [] := by
  unfold kwIndexAdd dictGetD at *
  rw [dictGet_dictSet]
  by_cases hk : pyLower kw = key
  · subst hk
    simp only [if_pos rfl, Option.getD_some]
    exact List.mem_append_left _ h
  · simpa [hk] using h

theorem self_mem_kwIndexAdd (s : String) (idx : Dict (List String)) (kw : String) :
    s ∈ dictGetD (kwIndexAdd s idx kw) (pyLower kw) [] := by
  unfold kwIndexAdd dictGetD
  rw [dictGet_dictSet]
  simp

theorem mem_kwIndexAdd_elim (s : String) (idx : Dict (List String)) (kw key sid : String)
    (h : sid ∈ dictGetD (kwIndexAdd s idx kw) key []) :
    sid ∈ dictGetD idx key [] ∨ sid = s := by
  unfold kwIndexAdd dictGetD at h
  rw [dictGet_dictSet] at h
  by_cases hk : pyLower kw = key
  · subst hk
    simp only [if_pos rfl, Option.getD_some] at h
    rcases List.mem_append.mp h with h' | h'
    · exact Or.inl (by simpa [dictGetD] using h')
    · exact Or.inr (List.mem_singleton.mp h')
  · simp only [if_neg hk] at h
    exact Or.inl (by simpa [dictGetD] using h)

theorem mem_kwFold_of_mem (s : String) (kws : List String) (idx : Dict (List String))
    (key sid : String) (h : sid ∈ dictGetD idx key []) :
    sid ∈ dictGetD (kws.foldl (kwIndexAdd s) idx) key [] := by
  induction kws generalizing idx with
  | nil => exact h
  | cons kw rest ih => exact ih _ (mem_kwIndexAdd_of_mem s idx kw key sid h)

theorem self_mem_kwFold (s : String) (kws : List String) (idx : Dict (List String))
    (kw : String) (hkw : kw ∈ kws) :
    s ∈ dictGetD (kws.foldl (kwIndexAdd s) idx) (pyLower kw) [] := by
  induction kws generalizing idx with
  | nil => cases hkw
  | cons kw0 rest ih =>
    rcases List.mem_cons.mp hkw with h | h
    · subst h
      exact mem_kwFold_of_mem s rest _ _ _ (self_mem_kwIndexAdd s idx kw)
    · exact ih _ h

theorem mem_kwFold_elim (s : String) (kws : List String) (idx : Dict (List String))
    (key sid : String) (h : sid ∈ dictGetD (kws.foldl (kwIndexAdd s) idx) key []) :
    sid ∈ dictGetD idx key [] ∨ sid = s := by
  induction kws generalizing idx with
  | nil => exact Or.inl h
  | cons kw rest ih =>
    rcases ih _ h with h' | h'
    · exact mem_kwIndexAdd_elim s idx kw key sid h'
    · exact Or.inr h'

theorem kwFold_ne_nil (s : String) (kws : List String) (idx : Dict (List String))
    (hidx : ∀ key l, dictGet idx key = some l → l ≠ [])
    (key : String) (l : List String)
    (h : dictGet (kws.foldl (kwIndexAdd s) idx) key = some l) : l ≠ [] := by
  induction kws generalizing idx with
  | nil => exact hidx key l h
  | cons kw rest ih =>
    refine ih _ ?_ h
    intro key' l' h'
    unfold kwIndexAdd at h'
    rw [dictGet_dictSet] at h'
    by_cases hk : pyLower kw = key'
    · rw [if_pos hk] at h'
      cases h'
      simp
    · rw [if_neg hk] at h'
      exact hidx key' l' h'

/-! ### What one `add_section` call does to the two indexes -/

theorem applyOp_keyword_index (m : NavigationMap) (op : AddOp) :
    (applyOp m op).keyword_index = op.keywords.foldl (kwIndexAdd op.section_id) m.keyword_index :=
  rfl

theorem applyOp_section_index_spec (m : NavigationMap) (op : AddOp) :
    ∃ base : Dict NavigationNode,
      (applyOp m op).section_index = dictSet base op.section_id op.node ∧
      ∀ sid, (dictGet m.section_index sid).isSome → (dictGet base sid).isSome := by
  cases hpid : op.parent_id with
  | none =>
    refine ⟨m.section_index, ?_, fun _ h => h⟩
    simp [applyOp, NavigationMap.add_section, hpid, AddOp.node]
  | some pid =>
    cases hp : dictGet m.section_index pid with
    | none =>
      refine ⟨m.section_index, ?_, fun _ h => h⟩
      simp [applyOp, NavigationMap.add_section, hpid, hp, AddOp.node]
    | some parent =>
      refine ⟨dictSet m.section_index pid { parent with children := parent.children ++ [op.node] },
        ?_, fun sid h => isSome_dictGet_dictSet _ _ _ _ h⟩
      simp [applyOp, NavigationMap.add_section, hpid, hp, AddOp.node]

theorem dictGet_applyOp_self (m : NavigationMap) (op : AddOp) :
    dictGet (applyOp m op).section_index op.section_id = some op.node := by
  obtain ⟨base, hbase, -⟩ := applyOp_section_index_spec m op
  rw [hbase, dictGet_dictSet, if_pos rfl]

theorem isSome_dictGet_applyOp (m : NavigationMap) (op : AddOp) (sid : String)
    (h : (dictGet m.section_index sid).isSome) :
    (dictGet (applyOp m op).section_index sid).isSome := by
  obtain ⟨base, hbase, hmono⟩ := applyOp_section_index_spec m op
  rw [hbase]
  exact isSome_dictGet_dictSet _ _ _ _ (hmono sid h)

/-! ### Reachable navigation maps -/

theorem mem_kw_foldl_mono (ops : List AddOp) (m : NavigationMap) (key sid : String)
    (h : sid ∈ dictGetD m.keyword_index key []) :
    sid ∈ dictGetD (ops.foldl applyOp m).keyword_index key [] := by
  induction ops generalizing m with
  | nil => exact h
  | cons op rest ih =>
    refine ih (applyOp m op) ?_
    rw [applyOp_keyword_index]
    exact mem_kwFold_of_mem _ _ _ _ _ h

theorem mem_kw_foldl_of_op (ops : List AddOp) (m : NavigationMap) (op : AddOp) (k : String)
    (hop : op ∈ ops) (hk : k ∈ op.keywords) :
    op.section_id ∈ dictGetD (ops.foldl applyOp m).keyword_index (pyLower k) [] := by
  induction ops generalizing m with
  | nil => cases hop
  | cons op0 rest ih =>
    rcases List.mem_cons.mp hop with h | h
    · subst h
      refine mem_kw_foldl_mono rest (applyOp m op) _ _ ?_
      rw [applyOp_keyword_index]
      exact self_mem_kwFold _ _ _ _ hk
    · exact ih _ h

/-- Invariant C8, stated over an arbitrary start map and transported along a
fold: every section id in a keyword list resolves in `section_index`. -/
theorem kw_resolvable_foldl (ops : List AddOp) (m : NavigationMap)
    (hm : ∀ key sid, sid ∈ dictGetD m.keyword_index key [] →
      (dictGet m.section_index sid).isSome) :
    ∀ key sid, sid ∈ dictGetD (ops.foldl applyOp m).keyword_index key [] →
      (dictGet (ops.foldl applyOp m).section_index sid).isSome := by
  induction ops generalizing m with
  | nil => exact hm
  | cons op rest ih =>
    refine ih (applyOp m op) ?_
    intro key sid h
    rw [applyOp_keyword_index] at h
    rcases mem_kwFold_elim _ _ _ _ _ h with h' | h'
    · exact isSome_dictGet_applyOp m op sid (hm key sid h')
    · subst h'
      rw [dictGet_applyOp_self]
      rfl

theorem applyOps_kw_resolvable (ops : List AddOp) :
    ∀ key sid, sid ∈ dictGetD (applyOps ops).keyword_index key [] →
      (dictGet (applyOps ops).section_index sid).isSome := by
  refine kw_resolvable_foldl ops NavigationMap.empty ?_
  intro key sid h
  simp [NavigationMap.empty, dictGetD, dictGet] at h

theorem applyOps_kw_values_ne_nil (ops : List AddOp) (key : String) (l : List String)
    (h : dictGet (applyOps ops).keyword_index key = some l) : l ≠ [] := by
  suffices hgen : ∀ (os : List AddOp) (m : NavigationMap),
      (∀ key' l', dictGet m.keyword_index key' = some l' → l' ≠ []) →
      ∀ key' l', dictGet (os.foldl applyOp m).keyword_index key' = some l' → l' ≠ [] by
    refine hgen ops NavigationMap.empty ?_ key l h
    intro key' l' h'
    simp [NavigationMap.empty, dictGet] at h'
  intro os
  induction os with
  | nil => intro m hm; exact hm
  | cons op rest ih =>
    intro m hm
    refine ih (applyOp m op) ?_
    intro key' l' h'
    rw [applyOp_keyword_index] at h'
    exact kwFold_ne_nil _ _ _ hm key' l' h'

/-! ### Small list and string facts -/

theorem length_filterMap_of_isSome {α β : Type} (f : α → Option β) (l : List α)
    (h : ∀ a ∈ l, (f a).isSome) : (l.filterMap f).length = l.length := by
  induction l with
  | nil => rfl
  | cons a rest ih =>
    have ha := h a (List.mem_cons_self a rest)
    cases hfa : f a with
    | none => rw [hfa] at ha; cases ha
    | some b =>
      simp only [List.filterMap_cons, hfa, List.length_cons]
      exact congrArg (fun n => n + 1) (ih (fun x hx => h x (List.mem_cons_of_mem a hx)))

/-- Two strings with distinct prefixes (their first `n` characters differ,
both being at least `n` long) stay distinct under any right extension. -/
theorem append_ne_append_of_take_ne (a b : String) (n : Nat)
    (hna : n ≤ a.data.length) (hnb : n ≤ b.data.length)
    (hne : a.data.take n ≠ b.data.take n) (x y : String) : a ++ x ≠ b ++ y := by
  intro heq
  apply hne
  have hd : a.data ++ x.data = b.data ++ y.data := by
    have := congrArg String.data heq
    rwa [String.data_append, String.data_append] at this
  calc a.data.take n = (a.data ++ x.data).take n := (List.take_append_of_le_length hna).symm
    _ = (b.data ++ y.data).take n := by rw [hd]
    _ = b.data.take n := List.take_append_of_le_length hnb

/-- A string with a distinct prefix stays distinct from a fixed string under
any right extension. -/
theorem append_ne_of_take_ne (a t : String) (n : Nat)
    (hna : n ≤ a.data.length)
    (hne : a.data.take n ≠ t.data.take n) (x : String) : a ++ x ≠ t := by
  intro heq
  apply hne
  have hd : a.data ++ x.data = t.data := by
    have := congrArg String.data heq
    rwa [String.data_append] at this
  calc a.data.take n = (a.data ++ x.data).take n := (List.take_append_of_le_length hna).symm
    _ = t.data.take n := by rw [hd]

/-! ### `generate_navigation_query` case helpers -/

theorem nav_query_of_lookup_none (m : NavigationMap) (topic : String)
    (h : dictGet m.keyword_index (pyLower topic) = none) :
    m.generate_navigation_query topic = "Найти информацию о " ++ topic := by
  simp only [NavigationMap.generate_navigation_query, NavigationMap.find_sections_by_keyword,
    dictGetD, h, Option.getD_none, List.filterMap_nil]

theorem nav_query_of_lookup_cons (m : NavigationMap) (topic sid : String) (rest : List String)
    (hl : dictGet m.keyword_index (pyLower topic) = some (sid :: rest))
    (node : NavigationNode) (hnode : dictGet m.section_index sid = some node) :
    m.generate_navigation_query topic =
      "В разделе \x27" ++ node.title ++ "\x27 найти информацию о " ++ topic := by
  simp only [NavigationMap.generate_navigation_query, NavigationMap.find_sections_by_keyword,
    dictGetD, hl, Option.getD_some, List.filterMap_cons, hnode]

/-- Two strings that differ at some character position are distinct. -/
theorem string_ne_of_getElem (i : Nat) (s t : String) (h : s.data[i]? ≠ t.data[i]?) : s ≠ t :=
  fun he => h (congrArg (fun u : String => u.data[i]?) he)

/-- C1 (amended): in any state reached by `add_section` calls, for a call that
added section id `sid` with keyword list `K`, any `k ∈ K` and any case
variant `k'` of `k`, `find_sections_by_keyword k'` contains the node created
by that call — provided `section_index` still maps `sid` to that node (no
later call overwrote the id); and a keyword with no index entry yields the
empty list. -/
theorem c1_find_contains_added_section (ops : List AddOp) (op : AddOp) (k k' : String)
    (hop : op ∈ ops) (hk : k ∈ op.keywords) (hcase : pyLower k' = pyLower k)
    (hlive : dictGet (applyOps ops).section_index op.section_id = some op.node) :
    op.node ∈ (applyOps ops).find_sections_by_keyword k' ∧
    ∀ k₀, dictGet (applyOps ops).keyword_index (pyLower k₀) = none →
      (applyOps ops).find_sections_by_keyword k₀ = [] := by
  constructor
  · simp only [NavigationMap.find_sections_by_keyword, hcase]
    refine List.mem_filterMap.mpr ⟨op.section_id, ?_, hlive⟩
    exact mem_kw_foldl_of_op ops NavigationMap.empty op k hop hk
  · intro k₀ h0
    simp only [NavigationMap.find_sections_by_keyword, dictGetD, h0, Option.getD_none,
      List.filterMap_nil]

/-- A concrete section used by several witnesses below. -/
def demoOp : AddOp :=
  { section_id := "py_basics", title := "Python Basics", description := "intro",
    keywords := ["Functions"] }

/-- Witness for C1 at a concrete input: one section added with keyword
`"Functions"` is found under the case variant `"fUnCtIonS"`. -/
theorem c1_find_contains_added_section_witness :
    demoOp.node ∈ (applyOps [demoOp]).find_sections_by_keyword "fUnCtIonS" ∧
    ∀ k₀, dictGet (applyOps [demoOp]).keyword_index (pyLower k₀) = none →
      (applyOps [demoOp]).find_sections_by_keyword k₀ = [] :=
  c1_find_contains_added_section [demoOp] demoOp "Functions" "fUnCtIonS"
    (List.mem_singleton.mpr rfl) (List.mem_singleton.mpr rfl) rfl rfl

/-- The duplicate-id scenario refuting C1 as stated. -/
def dupOps : List AddOp :=
  [{ section_id := "a", title := "T1", description := "", keywords := ["k"] },
   { section_id := "a", title := "T2", description := "", keywords := [] }]

/-- Counterexample to C1 as stated: adding a second section that reuses the
id `"a"` overwrites the `section_index` entry, so the section first added
with keyword `"k"` (titled `"T1"`) is no longer in `findSectionsByKeyword
"k"`; the lookup now yields only the node titled `"T2"`. -/
theorem c1_counterexample_duplicate_id :
    (((applyOps dupOps).find_sections_by_keyword "k").map NavigationNode.title = ["T2"]) ∧
    (("T1" ∈ ((applyOps dupOps).find_sections_by_keyword "k").map NavigationNode.title)
      ↔ False) :=
  ⟨rfl, by decide⟩

/-- C8: in every state reachable by `add_section` calls from the empty map,
every section id stored in a `keyword_index` value resolves in
`section_index`, so `find_sections_by_keyword` skips nothing: the result has
exactly one node per indexed id. -/
theorem c8_keyword_ids_resolve (ops : List AddOp) (k : String) :
    (∀ sid ∈ dictGetD (applyOps ops).keyword_index k [],
      (dictGet (applyOps ops).section_index sid).isSome = true) ∧
    ((applyOps ops).find_sections_by_keyword k).length =
      (dictGetD (applyOps ops).keyword_index (pyLower k) []).length := by
  constructor
  · exact fun sid h => applyOps_kw_resolvable ops k sid h
  · simp only [NavigationMap.find_sections_by_keyword]
    exact length_filterMap_of_isSome _ _
      (fun sid h => applyOps_kw_resolvable ops (pyLower k) sid h)

/-- C2: `generate_navigation_query` on a reachable map returns the fixed
generic phrasing (with the topic verbatim) when the lowercased topic has no
keyword entry; when it has one, the phrasing names the title of the node the
index currently holds for the first id in keyword-insertion order; and no
reachable keyword entry is an empty list. -/
theorem c2_navigation_query_first_match (ops : List AddOp) (topic : String) :
    (dictGet (applyOps ops).keyword_index (pyLower topic) = none →
      (applyOps ops).generate_navigation_query topic = "Найти информацию о " ++ topic) ∧
    (∀ sid rest, dictGet (applyOps ops).keyword_index (pyLower topic) = some (sid :: rest) →
      ∃ node, dictGet (applyOps ops).section_index sid = some node ∧
        (applyOps ops).generate_navigation_query topic =
          "В разделе \x27" ++ node.title ++ "\x27 найти информацию о " ++ topic) ∧
    ¬ dictGet (applyOps ops).keyword_index (pyLower topic) = some [] := by
  refine ⟨nav_query_of_lookup_none _ _, fun sid rest h => ?_, fun h => ?_⟩
  · have hsid : sid ∈ dictGetD (applyOps ops).keyword_index (pyLower topic) [] := by
      simp [dictGetD, h]
    obtain ⟨node, hnode⟩ :=
      Option.isSome_iff_exists.mp (applyOps_kw_resolvable ops (pyLower topic) sid hsid)
    exact ⟨node, hnode, nav_query_of_lookup_cons _ _ _ _ h node hnode⟩
  · exact applyOps_kw_values_ne_nil ops (pyLower topic) [] h rfl

/-- A concrete section with two lowercase keywords, for the C2 and C10
witnesses. -/
def demoOp2 : AddOp :=
  { section_id := "py_basics", title := "Python Basics", description := "intro",
    keywords := ["functions", "loops"] }

/-- Witness-style instance for C2 at a concrete input (both branches). -/
theorem c2_navigation_query_first_match_witness :
    (applyOps [demoOp2]).generate_navigation_query "Functions" =
      "В разделе \x27Python Basics\x27 найти информацию о Functions" ∧
    (applyOps [demoOp2]).generate_navigation_query "recursion" =
      "Найти информацию о recursion" :=
  ⟨rfl, rfl⟩

/-- C10: with `use_section_hint = true` the whole question string is passed
as the keyword topic, so when the lowercased question is not an indexed
keyword the result is the generic phrasing containing the whole question,
never a section-scoped phrasing. -/
theorem c10_whole_question_as_keyword (ops : List AddOp) (question : String) :
    (generate_optimized_query (applyOps ops) question true =
      (applyOps ops).generate_navigation_query question) ∧
    (dictGet (applyOps ops).keyword_index (pyLower question) = none →
      generate_optimized_query (applyOps ops) question true =
        "Найти информацию о " ++ question ∧
      ∀ t, generate_optimized_query (applyOps ops) question true ≠
        "В разделе \x27" ++ t ++ "\x27 найти информацию о " ++ question) := by
  have hdeleg : generate_optimized_query (applyOps ops) question true =
      (applyOps ops).generate_navigation_query question := rfl
  refine ⟨hdeleg, fun h => ?_⟩
  have hgen := nav_query_of_lookup_none (applyOps ops) question h
  refine ⟨hdeleg.trans hgen, fun t => ?_⟩
  rw [hdeleg, hgen]
  refine string_ne_of_getElem 0 _ _ ?_
  rw [show ("Найти информацию о " ++ question).data[0]? = some 'Н' from rfl,
    show ("В разделе \x27" ++ t ++ "\x27 найти информацию о " ++ question).data[0]? =
      some 'В' from rfl]
  decide

/-- Witness-style instance for C10: a question that contains an indexed
keyword but is not itself one falls back to the generic phrasing. -/
theorem c10_whole_question_as_keyword_witness :
    generate_optimized_query (applyOps [demoOp2]) "how do Functions work" true =
      "Найти информацию о how do Functions work" :=
  rfl

/-- C7: `build_multi_section_query` never fails (it is a total function): on
the empty id list it returns the question unchanged, ids that do not resolve
in `section_index` are silently dropped, an all-unresolved (or empty) title
list degrades to the bare question, and otherwise the phrasing names every
resolved title (in order) and the question. -/
theorem c7_multi_section_query (m : NavigationMap) (question : String)
    (section_ids : List String) :
    (build_multi_section_query m question [] = question) ∧
    (∀ sid, dictGet m.section_index sid = none →
      build_multi_section_query m question (sid :: section_ids) =
        build_multi_section_query m question section_ids) ∧
    (resolvedTitles m section_ids = [] →
      build_multi_section_query m question section_ids = question) ∧
    (resolvedTitles m section_ids ≠ [] →
      build_multi_section_query m question section_ids =
        "В разделах " ++ String.intercalate ", "
            ((resolvedTitles m section_ids).map (fun title => "\x27" ++ title ++ "\x27")) ++
          " найти: " ++ question) := by
  refine ⟨rfl, fun sid h => ?_, fun h => ?_, fun h => ?_⟩
  · have hfm : resolvedTitles m (sid :: section_ids) = resolvedTitles m section_ids := by
      simp [resolvedTitles, h]
    simp only [build_multi_section_query, hfm]
  · simp [build_multi_section_query, h]
  · simp [build_multi_section_query, h]

/-- Witness-style instance for C7 on a concrete index: one resolvable and
one unresolvable id. -/
theorem c7_multi_section_query_witness :
    build_multi_section_query (applyOps [demoOp2]) "how?" [] = "how?" ∧
    build_multi_section_query (applyOps [demoOp2]) "how?" ["nope"] = "how?" ∧
    build_multi_section_query (applyOps [demoOp2]) "how?" ["nope", "py_basics"] =
      "В разделах \x27Python Basics\x27 найти: how?" :=
  ⟨rfl, rfl, rfl⟩

/-- The metadata block exactly as the specification describes it: title
heading, category and source-type lines in fixed order, then a tags line, a
description line and a related-sections line each only when non-empty
(comma-joined, original order), terminated by the separator line.  This is
the spec-side rendering; `format_metadata_block` is the code-side one. -/
def metadataBlockSpec (metadata : SourceMetadata) : String :=
  String.intercalate "\n"
    (["# " ++ metadata.title,
      "**Категория:** " ++ metadata.category,
      "**Тип:** " ++ metadata.source_type.value]
     ++ (if metadata.tags = [] then []
         else ["**Теги:** " ++ String.intercalate ", " metadata.tags])
     ++ (if metadata.description = "" then []
         else ["**Описание:** " ++ metadata.description])
     ++ (if metadata.related_sections = [] then []
         else ["**Связанные разделы:** " ++
           String.intercalate ", " metadata.related_sections])
     ++ ["---\n"])

/-- Every line the formatter emits is one of seven shapes, the optional ones
only when their field is non-empty. -/
theorem format_metadata_lines_shape (md : SourceMetadata) (l : String)
    (hl : l ∈ format_metadata_lines md) :
    l = "# " ++ md.title ∨ l = "**Категория:** " ++ md.category ∨
    l = "**Тип:** " ++ md.source_type.value ∨
    (md.tags ≠ [] ∧ l = "**Теги:** " ++ String.intercalate ", " md.tags) ∨
    (md.description ≠ "" ∧ l = "**Описание:** " ++ md.description) ∨
    (md.related_sections ≠ [] ∧
      l = "**Связанные разделы:** " ++ String.intercalate ", " md.related_sections) ∨
    l = "---\n" := by
  by_cases h1 : md.tags = [] <;> by_cases h2 : md.description = "" <;>
    by_cases h3 : md.related_sections = [] <;>
    simp [format_metadata_lines, h1, h2, h3] at hl <;> tauto

/-- C4: the formatter is a pure function of its `SourceMetadata` argument
(determinism is inherent: it is a function), its output is exactly the
fixed-order block the specification describes, and no line for an empty
optional field is ever emitted — in particular no tags label when `tags` is
empty. -/
theorem c4_metadata_block_format (md : SourceMetadata) :
    format_metadata_block md = metadataBlockSpec md ∧
    (md.tags = [] → ∀ x, ("**Теги:** " ++ x) ∉ format_metadata_lines md) ∧
    (md.description = "" → ∀ x, ("**Описание:** " ++ x) ∉ format_metadata_lines md) ∧
    (md.related_sections = [] →
      ∀ x, ("**Связанные разделы:** " ++ x) ∉ format_metadata_lines md) := by
  refine ⟨?_, fun he x hmem => ?_, fun he x hmem => ?_, fun he x hmem => ?_⟩
  · unfold format_metadata_block metadataBlockSpec
    by_cases h1 : md.tags = [] <;> by_cases h2 : md.description = "" <;>
      by_cases h3 : md.related_sections = [] <;>
      simp [format_metadata_lines, h1, h2, h3]
  · rcases format_metadata_lines_shape md _ hmem with h | h | h | ⟨hne, h⟩ | ⟨hne, h⟩ | ⟨hne, h⟩ | h
    · exact string_ne_of_getElem 0 _ _ (by
        rw [show ("**Теги:** " ++ x).data[0]? = some '*' from rfl,
          show ("# " ++ md.title).data[0]? = some '#' from rfl]; decide) h
    · exact string_ne_of_getElem 2 _ _ (by
        rw [show ("**Теги:** " ++ x).data[2]? = some 'Т' from rfl,
          show ("**Категория:** " ++ md.category).data[2]? = some 'К' from rfl]; decide) h
    · exact string_ne_of_getElem 3 _ _ (by
        rw [show ("**Теги:** " ++ x).data[3]? = some 'е' from rfl,
          show ("**Тип:** " ++ md.source_type.value).data[3]? = some 'и' from rfl]; decide) h
    · exact hne he
    · exact string_ne_of_getElem 2 _ _ (by
        rw [show ("**Теги:** " ++ x).data[2]? = some 'Т' from rfl,
          show ("**Описание:** " ++ md.description).data[2]? = some 'О' from rfl]; decide) h
    · exact string_ne_of_getElem 2 _ _ (by
        rw [show ("**Теги:** " ++ x).data[2]? = some 'Т' from rfl,
          show ("**Связанные разделы:** " ++
            String.intercalate ", " md.related_sections).data[2]? = some 'С' from rfl];
        decide) h
    · exact string_ne_of_getElem 0 _ _ (by
        rw [show ("**Теги:** " ++ x).data[0]? = some '*' from rfl,
          show ("---\n" : String).data[0]? = some '-' from rfl]; decide) h
  · rcases format_metadata_lines_shape md _ hmem with h | h | h | ⟨hne, h⟩ | ⟨hne, h⟩ | ⟨hne, h⟩ | h
    · exact string_ne_of_getElem 0 _ _ (by
        rw [show ("**Описание:** " ++ x).data[0]? = some '*' from rfl,
          show ("# " ++ md.title).data[0]? = some '#' from rfl]; decide) h
    · exact string_ne_of_getElem 2 _ _ (by
        rw [show ("**Описание:** " ++ x).data[2]? = some 'О' from rfl,
          show ("**Категория:** " ++ md.category).data[2]? = some 'К' from rfl]; decide) h
    · exact string_ne_of_getElem 2 _ _ (by
        rw [show ("**Описание:** " ++ x).data[2]? = some 'О' from rfl,
          show ("**Тип:** " ++ md.source_type.value).data[2]? = some 'Т' from rfl]; decide) h
    · exact string_ne_of_getElem 2 _ _ (by
        rw [show ("**Описание:** " ++ x).data[2]? = some 'О' from rfl,
          show ("**Теги:** " ++ String.intercalate ", " md.tags).data[2]? = some 'Т' from rfl];
        decide) h
    · exact hne he
    · exact string_ne_of_getElem 2 _ _ (by
        rw [show ("**Описание:** " ++ x).data[2]? = some 'О' from rfl,
          show ("**Связанные разделы:** " ++
            String.intercalate ", " md.related_sections).data[2]? = some 'С' from rfl];
        decide) h
    · exact string_ne_of_getElem 0 _ _ (by
        rw [show ("**Описание:** " ++ x).data[0]? = some '*' from rfl,
          show ("---\n" : String).data[0]? = some '-' from rfl]; decide) h
  · rcases format_metadata_lines_shape md _ hmem with h | h | h | ⟨hne, h⟩ | ⟨hne, h⟩ | ⟨hne, h⟩ | h
    · exact string_ne_of_getElem 0 _ _ (by
        rw [show ("**Связанные разделы:** " ++ x).data[0]? = some '*' from rfl,
          show ("# " ++ md.title).data[0]? = some '#' from rfl]; decide) h
    · exact string_ne_of_getElem 2 _ _ (by
        rw [show ("**Связанные разделы:** " ++ x).data[2]? = some 'С' from rfl,
          show ("**Категория:** " ++ md.category).data[2]? = some 'К' from rfl]; decide) h
    · exact string_ne_of_getElem 2 _ _ (by
        rw [show ("**Связанные разделы:** " ++ x).data[2]? = some 'С' from rfl,
          show ("**Тип:** " ++ md.source_type.value).data[2]? = some 'Т' from rfl]; decide) h
    · exact string_ne_of_getElem 2 _ _ (by
        rw [show ("**Связанные разделы:** " ++ x).data[2]? = some 'С' from rfl,
          show ("**Теги:** " ++ String.intercalate ", " md.tags).data[2]? = some 'Т' from rfl];
        decide) h
    · exact string_ne_of_getElem 2 _ _ (by
        rw [show ("**Связанные разделы:** " ++ x).data[2]? = some 'С' from rfl,
          show ("**Описание:** " ++ md.description).data[2]? = some 'О' from rfl]; decide) h
    · exact hne he
    · exact string_ne_of_getElem 0 _ _ (by
        rw [show ("**Связанные разделы:** " ++ x).data[0]? = some '*' from rfl,
          show ("---\n" : String).data[0]? = some '-' from rfl]; decide) h

/-- The 80-character question (leading space, then 79 characters) that
refutes C9 as stated. -/
def qLeadingSpace : String := " aaaaaaaaaaaaaaaaaaaaaaaaaaaaaaaaaaaaaaaaaaaaaaaaaaaaaaaaaaaaaaaaaaaaaaaaaaaaaaa"

/-- Counterexample to C9 as stated: for this 80-character question the
stripped form (length 79) is what gets truncated, so the question portion of
the title is the first 50 characters of the *stripped* question, not of the
question itself (whose first 50 characters start with the space). -/
theorem c9_counterexample_leading_whitespace :
    (pyLen qLeadingSpace = 80) ∧
    (({} : Config).get_note_title qLeadingSpace = "Заметка: aaaaaaaaaaaaaaaaaaaaaaaaaaaaaaaaaaaaaaaaaaaaaaaaaa...") ∧
    ((({} : Config).get_note_title qLeadingSpace =
        ({} : Config).note_label ++ " " ++
          (pySlice qLeadingSpace ({} : Config).note_max_title_length ++ "...")) ↔ False) := by
  exact ⟨rfl, rfl, by decide⟩

/-- C9 (amended): when the *stripped* question is longer than
`note_max_title_length`, the note title is the configured marker, a space,
the first `note_max_title_length` characters of the stripped question, and
the ellipsis. -/
theorem c9_truncated_note_title (c : Config) (question : String)
    (h : c.note_max_title_length < pyLen (pyStrip question)) :
    c.get_note_title question =
      c.note_label ++ " " ++
        (pySlice (pyStrip question) c.note_max_title_length ++ "...") := by
  simp only [Config.get_note_title]
  rw [if_pos h]

/-- Witness for C9 at the claim scenario: an 80-character question (no
surrounding whitespace) with the default limit 50 keeps exactly its first 50
characters before the ellipsis. -/
theorem c9_truncated_note_title_witness :
    ({} : Config).get_note_title "bbbbbbbbbbbbbbbbbbbbbbbbbbbbbbbbbbbbbbbbbbbbbbbbbbbbbbbbbbbbbbbbbbbbbbbbbbbbbbbb" =
      ({} : Config).note_label ++ " " ++
        (pySlice (pyStrip "bbbbbbbbbbbbbbbbbbbbbbbbbbbbbbbbbbbbbbbbbbbbbbbbbbbbbbbbbbbbbbbbbbbbbbbbbbbbbbbb") ({} : Config).note_max_title_length ++ "...") :=
  c9_truncated_note_title {} "bbbbbbbbbbbbbbbbbbbbbbbbbbbbbbbbbbbbbbbbbbbbbbbbbbbbbbbbbbbbbbbbbbbbbbbbbbbbbbbb" (by decide)

